import Mathlib

/-!
Shallow embedding of the hybrid retrieval pipeline of the Koby AI vector-DB
service (Django app `core`): text chunking and vector-search result handling
(`core/utils.py`), lexical contribution search (`core/mongodb_utils.py`) and
the enhanced dual search with quality assessment and context blending
(`core/enhanced_search.py`).

Python strings are modelled as `List Char`, Python floats as `ℚ` (exact
arithmetic; the vector-normalization code, whose behaviour involves a square
root, is modelled over `ℝ`).  Database state and external collaborators (the
FAISS index, MongoDB's `$text` search) are passed in explicitly as arguments.
-/

namespace KobyCore

/-! ### Python string primitives -/

/-- Whitespace characters recognised by Python's `str.strip` / `str.split`
(restricted to the forms occurring in this repository's text inputs). -/
def isSpaceChar (c : Char) : Bool :=
  c == ' ' || c == '\t' || c == '\n' || c == '\r'

/-- Python `text.strip()`: drop leading and trailing whitespace. -/
def pyStrip (l : List Char) : List Char :=
  ((l.dropWhile isSpaceChar).reverse.dropWhile isSpaceChar).reverse

/-- Helper of `pySplit`: accumulate the current word (reversed) while
scanning. -/
def pySplitAux : List Char → List Char → List (List Char)
  | [], acc => if acc.isEmpty then [] else [acc.reverse]
  | c :: rest, acc =>
    if isSpaceChar c then
      if acc.isEmpty then pySplitAux rest [] else acc.reverse :: pySplitAux rest []
    else pySplitAux rest (c :: acc)

/-- Python `text.split()` with no argument: split on whitespace runs, never
producing empty words. -/
def pySplit (l : List Char) : List (List Char) := pySplitAux l []

theorem dropWhile_dropWhile (p : Char → Bool) (l : List Char) :
    (l.dropWhile p).dropWhile p = l.dropWhile p := by
  induction l with
  | nil => rfl
  | cons x xs ih =>
    by_cases h : p x
    · simp [List.dropWhile_cons, h, ih]
    · simp [List.dropWhile_cons, h]

theorem dropWhile_eq_self_of_leading (p : Char → Bool) {u l : List Char}
    (hp : u <+: l) (hl : l.dropWhile p = l) : u.dropWhile p = u := by
  obtain ⟨t, rfl⟩ := hp
  cases u with
  | nil => rfl
  | cons x u' =>
    by_cases h : p x
    · exfalso
      rw [List.cons_append, List.dropWhile_cons, if_pos h] at hl
      have hle := (List.dropWhile_sublist (l := u' ++ t) p).length_le
      rw [hl] at hle
      simp at hle
    · simp [List.dropWhile_cons, h]

theorem pyStrip_eq (l : List Char) :
    pyStrip l = (l.dropWhile isSpaceChar).rdropWhile isSpaceChar := rfl

theorem pyStrip_idem (l : List Char) : pyStrip (pyStrip l) = pyStrip l := by
  rw [pyStrip_eq, pyStrip_eq]
  set m := l.dropWhile isSpaceChar with hm
  have hnoLead : (m.rdropWhile isSpaceChar).dropWhile isSpaceChar
      = m.rdropWhile isSpaceChar :=
    dropWhile_eq_self_of_leading _ ( List.rdropWhile_prefix _ _)
      (by rw [hm]; exact dropWhile_dropWhile _ l)
  rw [hnoLead, List.rdropWhile, List.rdropWhile, List.reverse_reverse,
    dropWhile_dropWhile]

/-! ### Chunker (`chunk_text`, `core/utils.py` lines 71-103)

The `while start < text_length` loop is written with an explicit fuel
argument (structural recursion); `chunk_text` supplies fuel `text.length`,
and claim C6's theorem proves that any fuel of at least
`text.length - start` computes the same value, i.e. the loop terminates
within `text.length` iterations. -/

/-- The cursor update `start = max(start + 1, end - overlap)` where
`end = min(start + chunk_size, text_length)` (`core/utils.py` line 100). -/
def chunkNext (text_length chunk_size overlap start : ℕ) : ℕ :=
  max (start + 1) (min (start + chunk_size) text_length - overlap)

/-- The chunking loop body (`core/utils.py` lines 90-100). -/
def chunkLoop (text : List Char) (chunk_size overlap : ℕ) : ℕ → ℕ → List (List Char)
  | _, 0 => []
  | start, fuel + 1 =>
    if start < text.length then
      let e := min (start + chunk_size) text.length
      let chunk := pyStrip ((text.drop start).take (e - start))
      let rest :=
        if text.length ≤ e then []
        else chunkLoop text chunk_size overlap (chunkNext text.length chunk_size overlap start) fuel
      if chunk.isEmpty then rest else chunk :: rest
    else []

/-- The clamp `overlap = chunk_size // 2` applied when
`overlap >= chunk_size` (`core/utils.py` lines 82-84). -/
def effectiveOverlap (chunk_size overlap : ℕ) : ℕ :=
  if chunk_size ≤ overlap then chunk_size / 2 else overlap

/-- `chunk_text` (`core/utils.py` lines 71-103). -/
def chunk_text (text : List Char) (chunk_size overlap : ℕ) : List (List Char) :=
  if text.isEmpty || (pyStrip text).isEmpty then []
  else chunkLoop text chunk_size (effectiveOverlap chunk_size overlap) 0 text.length

theorem chunkLoop_fuel_stable (text : List Char) (cs ov : ℕ) :
    ∀ fuel₁ fuel₂ start, text.length - start ≤ fuel₁ → text.length - start ≤ fuel₂ →
      chunkLoop text cs ov start fuel₁ = chunkLoop text cs ov start fuel₂ := by
  intro fuel₁
  induction fuel₁ with
  | zero =>
    intro fuel₂ start h1 h2
    have hge : text.length ≤ start := by omega
    cases fuel₂ with
    | zero => rfl
    | succ f => simp [chunkLoop, Nat.not_lt.2 hge]
  | succ f ih =>
    intro fuel₂ start h1 h2
    cases fuel₂ with
    | zero =>
      have hge : text.length ≤ start := by omega
      simp [chunkLoop, Nat.not_lt.2 hge]
    | succ g =>
      by_cases hlt : start < text.length
      · have hnext : start + 1 ≤ chunkNext text.length cs ov start := le_max_left _ _
        have hrec : chunkLoop text cs ov (chunkNext text.length cs ov start) f
            = chunkLoop text cs ov (chunkNext text.length cs ov start) g := by
          apply ih <;> omega
        simp only [chunkLoop, if_pos hlt]
        rw [hrec]
      · simp [chunkLoop, hlt]

/-- Claim C6: chunking terminates.  If `overlap ≥ chunk_size` the overlap is
first clamped to `chunk_size / 2`; the window start advanced as
`max(previous_start + 1, window_end - overlap)` strictly increases on every
iteration; and the loop stabilises within `text.length` iterations — giving
it any larger iteration budget computes the same chunk list, so the loop
never runs forever. -/
theorem chunking_terminates (text : List Char) (chunk_size overlap : ℕ)
    (_hcs : 0 < chunk_size) (_hov : 0 < overlap) :
    (chunk_size ≤ overlap → effectiveOverlap chunk_size overlap = chunk_size / 2) ∧
    (∀ start, start <
      chunkNext text.length chunk_size (effectiveOverlap chunk_size overlap) start) ∧
    (∀ fuel, text.length ≤ fuel →
      chunkLoop text chunk_size (effectiveOverlap chunk_size overlap) 0 fuel
        = chunkLoop text chunk_size (effectiveOverlap chunk_size overlap) 0 text.length) := by
  refine ⟨fun h => by simp [effectiveOverlap, h], fun start => ?_, fun fuel hf => ?_⟩
  · calc start < start + 1 := Nat.lt_succ_self _
      _ ≤ _ := le_max_left _ _
  · exact chunkLoop_fuel_stable text _ _ fuel text.length 0 (by omega) (by omega)

theorem chunking_terminates_witness :
    (0 < 4 ∧ 0 < 6 ∧ 4 ≤ 6 ∧ (("hello world").toList).length ≤ 20) ∧
    effectiveOverlap 4 6 = 2 ∧
    chunkLoop (("hello world").toList) 4 (effectiveOverlap 4 6) 0 20
      = chunkLoop (("hello world").toList) 4 (effectiveOverlap 4 6) 0
          (("hello world").toList).length :=
  ⟨⟨by decide, by decide, by decide, by decide⟩,
    (chunking_terminates (("hello world").toList) 4 6 (by decide) (by decide)).1 (by decide),
    (chunking_terminates (("hello world").toList) 4 6 (by decide) (by decide)).2.2 20
      (by decide)⟩

theorem chunkLoop_mem (text : List Char) (cs ov : ℕ) :
    ∀ fuel start c, c ∈ chunkLoop text cs ov start fuel →
      ∃ w, c = pyStrip w ∧ c ≠ [] := by
  intro fuel
  induction fuel with
  | zero => intro start c hc; simp [chunkLoop] at hc
  | succ f ih =>
    intro start c hc
    by_cases hlt : start < text.length
    · simp only [chunkLoop, if_pos hlt] at hc
      set w := (text.drop start).take (min (start + cs) text.length - start) with hw
      by_cases hemp : (pyStrip w).isEmpty
      · rw [if_pos hemp] at hc
        by_cases hend : text.length ≤ min (start + cs) text.length
        · rw [if_pos hend] at hc; simp at hc
        · rw [if_neg hend] at hc
          exact ih _ c hc
      · rw [if_neg hemp] at hc
        rcases List.mem_cons.1 hc with h | h
        · exact ⟨w, h, by simpa [h, List.isEmpty_iff] using hemp⟩
        · by_cases hend : text.length ≤ min (start + cs) text.length
          · rw [if_pos hend] at h; simp at h
          · rw [if_neg hend] at h
            exact ih _ c h
    · simp [chunkLoop, hlt] at hc

/-- Claim C7: chunking an empty or whitespace-only text returns the empty
sequence, and every chunk the chunker returns is non-empty and invariant
under whitespace trimming (so in particular non-empty after trimming). -/
theorem chunk_text_nonempty_chunks (text : List Char) (chunk_size overlap : ℕ) :
    (pyStrip text = [] → chunk_text text chunk_size overlap = []) ∧
    (∀ c ∈ chunk_text text chunk_size overlap, c ≠ [] ∧ pyStrip c = c) := by
  constructor
  · intro h
    simp [chunk_text, h]
  · intro c hc
    unfold chunk_text at hc
    by_cases hempty : text.isEmpty || (pyStrip text).isEmpty
    · rw [if_pos hempty] at hc; simp at hc
    · rw [if_neg hempty] at hc
      obtain ⟨w, rfl, hne⟩ := chunkLoop_mem text _ _ _ _ c hc
      exact ⟨hne, pyStrip_idem w⟩

theorem chunk_text_nonempty_chunks_witness :
    pyStrip (("   ").toList) = [] ∧ chunk_text (("   ").toList) 100 20 = [] ∧
    (("ab").toList ∈ chunk_text (("ab").toList) 100 20 ∧
      ("ab").toList ≠ [] ∧ pyStrip (("ab").toList) = ("ab").toList) :=
  ⟨by decide, (chunk_text_nonempty_chunks (("   ").toList) 100 20).1 (by decide),
    by decide,
    (chunk_text_nonempty_chunks (("ab").toList) 100 20).2 (("ab").toList) (by decide)⟩

/-! ### Vector normalization (`normalize`, `core/utils.py` lines 126-135)

Rows are rational vectors; the L2 norm (a square root) lives in `ℝ`.  The
source computes per-row norms, replaces exact zeros by `1e-10`
(`norms[norms == 0] = 1e-10`) and divides each row by its divisor. -/

/-- Sum of squares of one row. -/
def sqNorm (v : List ℚ) : ℚ := (v.map (fun x => x * x)).sum

/-- Per-row L2 norm, `np.linalg.norm(vecs, axis=1)` restricted to one row. -/
noncomputable def rowNorm (v : List ℚ) : ℝ := Real.sqrt ((sqNorm v : ℚ) : ℝ)

open Classical in
/-- The per-row divisor after the guard `norms[norms == 0] = 1e-10`. -/
noncomputable def normDivisor (v : List ℚ) : ℝ :=
  if rowNorm v = 0 then 1e-10 else rowNorm v

/-- One row of the output of `normalize`: `vecs / norms`. -/
noncomputable def normalizeRow (v : List ℚ) : List ℝ :=
  v.map (fun x : ℚ => (x : ℝ) / normDivisor v)

theorem sqNorm_nonneg (v : List ℚ) : 0 ≤ sqNorm v := by
  unfold sqNorm
  induction v with
  | nil => simp
  | cons x xs ih => simpa using add_nonneg (mul_self_nonneg x) ih

theorem sqNorm_eq_zero_iff (v : List ℚ) : sqNorm v = 0 ↔ ∀ x ∈ v, x = 0 := by
  induction v with
  | nil => simp [sqNorm]
  | cons x xs ih =>
    have hx : (0 : ℚ) ≤ x * x := mul_self_nonneg x
    have hxs : 0 ≤ sqNorm xs := sqNorm_nonneg xs
    have hstep : sqNorm (x :: xs) = x * x + sqNorm xs := by simp [sqNorm]
    rw [hstep]
    constructor
    · intro h
      have h1 : x * x = 0 := by linarith [hxs, hx]
      have h2 : sqNorm xs = 0 := by linarith [hxs, hx]
      intro y hy
      rcases List.mem_cons.1 hy with rfl | hy'
      · exact mul_self_eq_zero.1 h1
      · exact (ih.1 h2) y hy'
    · intro h
      have h1 : x = 0 := h x (List.mem_cons_self _ _)
      have h2 : sqNorm xs = 0 := ih.2 (fun y hy => h y (List.mem_cons_of_mem _ hy))
      rw [h1, h2]; ring

theorem rowNorm_eq_zero_iff (v : List ℚ) : rowNorm v = 0 ↔ ∀ x ∈ v, x = 0 := by
  unfold rowNorm
  rw [Real.sqrt_eq_zero (by exact_mod_cast sqNorm_nonneg v)]
  rw [show ((sqNorm v : ℚ) : ℝ) = 0 ↔ sqNorm v = 0 from by exact_mod_cast Iff.rfl]
  exact sqNorm_eq_zero_iff v

/-- Claim C9: normalization is total and never divides by zero — the
effective divisor is never `0`; a row whose L2 norm is exactly zero (the
all-zero row) is returned unchanged; every row with non-zero norm is divided
pointwise by its L2 norm. -/
theorem normalize_total (v : List ℚ) :
    normDivisor v ≠ 0 ∧
    ((∀ x ∈ v, x = 0) → normalizeRow v = v.map (fun x : ℚ => (x : ℝ))) ∧
    (rowNorm v ≠ 0 → normalizeRow v = v.map (fun x : ℚ => (x : ℝ) / rowNorm v)) := by
  refine ⟨?_, ?_, ?_⟩
  · unfold normDivisor
    split
    · norm_num
    · assumption
  · intro h
    unfold normalizeRow
    exact List.map_congr_left (fun x hx => by rw [h x hx]; simp)
  · intro h
    unfold normalizeRow normDivisor
    rw [if_neg h]

theorem normalize_total_witness :
    ((∀ x ∈ ([0, 0] : List ℚ), x = 0) ∧
      normalizeRow [0, 0] = ([0, 0] : List ℚ).map (fun x : ℚ => (x : ℝ))) ∧
    (rowNorm [3, 4] ≠ 0 ∧
      normalizeRow [3, 4] = ([3, 4] : List ℚ).map (fun x : ℚ => (x : ℝ) / rowNorm [3, 4])) := by
  have h34 : rowNorm [3, 4] ≠ 0 := fun h => by
    have := (rowNorm_eq_zero_iff [3, 4]).1 h 3 (by decide)
    norm_num at this
  exact ⟨⟨by decide, (normalize_total [0, 0]).2.1 (by decide)⟩,
    ⟨h34, (normalize_total [3, 4]).2.2 h34⟩⟩

/-! ### Vector-search result extraction
(`search_similar_chunks`, `core/utils.py` lines 224-234)

`index.search` returns `(scores, ids)`; FAISS ids are signed 64-bit
integers (`ℤ` here; FAISS pads with `-1` when fewer than `k` vectors
exist).  The loop keeps a pair when `idx < len(metadata)` and
`score >= similarity_threshold`, dereferencing `metadata[idx]` with Python
list-indexing semantics (negative indexes wrap from the end; an index below
`-len` raises `IndexError`, modelled as `none`), and skips a pair with a
warning when `idx >= len(metadata)`. -/

/-- One metadata record, positionally aligned with the index rows. -/
structure ChunkMeta where
  filename : String
  page : ℕ
  text : String
deriving DecidableEq

/-- A metadata record together with the `similarity` score attached by the
extraction loop (`chunk_data['similarity'] = float(score)`). -/
structure FaissChunk where
  meta : ChunkMeta
  similarity : ℚ
deriving DecidableEq

/-- Python `l[i]` for an `int` index `i`. -/
def pyListGet {α : Type} (l : List α) (i : ℤ) : Option α :=
  if 0 ≤ i then l.get? i.toNat
  else if 0 ≤ i + l.length then l.get? (i + l.length).toNat
  else none

/-- The result-extraction loop over `zip(scores[0], indices[0])`
(`core/utils.py` lines 227-234); `none` models an uncaught `IndexError`. -/
def extractChunks (pairs : List (ℚ × ℤ)) (metadata : List ChunkMeta) (thr : ℚ) :
    Option (List FaissChunk) :=
  match pairs with
  | [] => some []
  | (score, idx) :: rest =>
    if idx < (metadata.length : ℤ) ∧ thr ≤ score then
      match pyListGet metadata idx with
      | some m => (extractChunks rest metadata thr).map (fun t => ⟨m, score⟩ :: t)
      | none => none
    else
      extractChunks rest metadata thr

def metaA : ChunkMeta := ⟨"a.pdf", 1, "alpha text"⟩

def metaB : ChunkMeta := ⟨"b.pdf", 2, "beta text"⟩

/-- Claim C8, counterexample: with metadata of length 2 and a single
returned pair carrying id `-1` (not a within-bounds id: it is negative) and
score `1 ≥ 0`, the loop contributes a chunk — dereferenced Python-style
from the end of the metadata sequence — so it is false that only ids within
bounds contribute chunks to the result. -/
theorem extract_negative_id_contributes :
    extractChunks [((1 : ℚ), (-1 : ℤ))] [metaA, metaB] 0
        = some [{ meta := metaB, similarity := 1 }] ∧
    (-1 : ℤ) < 0 := by
  exact ⟨by decide, by decide⟩

/-- Claim C8, amended: every returned id `≥ len(metadata)` is discarded —
filtering those pairs away does not change the extraction — and every chunk
the loop emits comes from a pair whose id is `< len(metadata)` with score at
or above the threshold, its metadata record obtained by Python list
indexing (so negative ids are not bounds-checked and wrap from the end). -/
theorem extract_bounds_check (pairs : List (ℚ × ℤ)) (metadata : List ChunkMeta) (thr : ℚ) :
    (extractChunks pairs metadata thr
      = extractChunks (pairs.filter (fun p => decide (p.2 < (metadata.length : ℤ))))
          metadata thr) ∧
    (∀ out, extractChunks pairs metadata thr = some out →
      ∀ c ∈ out, ∃ p ∈ pairs, p.2 < (metadata.length : ℤ) ∧ thr ≤ p.1 ∧
        pyListGet metadata p.2 = some c.meta ∧ c.similarity = p.1) := by
  constructor
  · induction pairs with
    | nil => rfl
    | cons hd tl ih =>
      obtain ⟨score, idx⟩ := hd
      by_cases hb : idx < (metadata.length : ℤ)
      · by_cases hs : thr ≤ score
        · simp only [extractChunks, if_pos (And.intro hb hs), List.filter_cons,
            decide_eq_true hb]
          cases hm : pyListGet metadata idx with
          | none => simp [extractChunks, if_pos (And.intro hb hs), hm]
          | some m => simp [extractChunks, if_pos (And.intro hb hs), hm, ih]
        · have hcond : ¬(idx < (metadata.length : ℤ) ∧ thr ≤ score) := fun h => hs h.2
          simp only [extractChunks, if_neg hcond, List.filter_cons, decide_eq_true hb]
          simp [extractChunks, if_neg hcond, ih]
      · have hcond : ¬(idx < (metadata.length : ℤ) ∧ thr ≤ score) := fun h => hb h.1
        simp only [extractChunks, if_neg hcond, List.filter_cons]
        simp [hb, ih]
  · induction pairs with
    | nil =>
      intro out hout c hc
      simp only [extractChunks, Option.some.injEq] at hout
      rw [← hout] at hc
      simp at hc
    | cons hd tl ih =>
      intro out hout c hc
      obtain ⟨score, idx⟩ := hd
      by_cases hcond : idx < (metadata.length : ℤ) ∧ thr ≤ score
      · rw [show extractChunks ((score, idx) :: tl) metadata thr
            = (if idx < (metadata.length : ℤ) ∧ thr ≤ score then
                match pyListGet metadata idx with
                | some m => (extractChunks tl metadata thr).map (fun t => ⟨m, score⟩ :: t)
                | none => none
              else extractChunks tl metadata thr) from rfl, if_pos hcond] at hout
        cases hm : pyListGet metadata idx with
        | none => rw [hm] at hout; simp at hout
        | some m =>
          rw [hm] at hout
          rcases Option.map_eq_some'.1 hout with ⟨t, ht, rfl⟩
          rcases List.mem_cons.1 hc with rfl | hc'
          · exact ⟨(score, idx), List.mem_cons_self _ _, hcond.1, hcond.2, hm, rfl⟩
          · obtain ⟨p, hp, hrest⟩ := ih t ht c hc'
            exact ⟨p, List.mem_cons_of_mem _ hp, hrest⟩
      · rw [show extractChunks ((score, idx) :: tl) metadata thr
            = (if idx < (metadata.length : ℤ) ∧ thr ≤ score then
                match pyListGet metadata idx with
                | some m => (extractChunks tl metadata thr).map (fun t => ⟨m, score⟩ :: t)
                | none => none
              else extractChunks tl metadata thr) from rfl, if_neg hcond] at hout
        obtain ⟨p, hp, hrest⟩ := ih out hout c hc
        exact ⟨p, List.mem_cons_of_mem _ hp, hrest⟩

theorem extract_bounds_check_witness :
    ∃ p ∈ [((1 : ℚ), (0 : ℤ))], p.2 < (([metaA] : List ChunkMeta).length : ℤ) ∧
      (0 : ℚ) ≤ p.1 ∧ pyListGet [metaA] p.2 = some (⟨metaA, 1⟩ : FaissChunk).meta ∧
      (⟨metaA, 1⟩ : FaissChunk).similarity = p.1 :=
  (extract_bounds_check [((1 : ℚ), (0 : ℤ))] [metaA] 0).2
    [⟨metaA, 1⟩] (by decide) ⟨metaA, 1⟩ (by decide)

/-! ### Contribution store model (`core/feedback_models.py`)

A stored `UserContribution` keeps only the fields the retrieval pipeline
reads (`question`, `answer`, `rating`, `usage_count`, `is_approved`); the
`is_approved` string field takes exactly the three values
`pending`/`approved`/`rejected`. -/

inductive ApprovalState
  | pending
  | approved
  | rejected
deriving DecidableEq

structure StoredContribution where
  id : ℕ
  question : List Char
  answer : List Char
  rating : ℚ
  usage_count : ℕ
  is_approved : ApprovalState
deriving DecidableEq

/-- A contribution dict as returned by `search_similar_contributions`
(`to_dict()` plus the attached `similarity_score`; purely diagnostic keys
such as `question_similarity` and `search_method` are omitted). -/
structure ContributionResult where
  contrib : StoredContribution
  similarity_score : ℚ
deriving DecidableEq

/-! ### Text normalization and keywords (`core/mongodb_utils.py`) -/

/-- Python's `\w` word characters (ASCII model: alphanumeric or
underscore). -/
def isWordChar (c : Char) : Bool := c.isAlphanum || c == '_'

/-- `text.lower()`. -/
def pyLower (l : List Char) : List Char := l.map Char.toLower

/-- `re.sub(r'[^\w\s]', ' ', text.lower())`: every character that is neither
a word character nor whitespace becomes a space. -/
def cleanChars (l : List Char) : List Char :=
  (pyLower l).map (fun c => if isWordChar c || isSpaceChar c then c else ' ')

/-- `_normalize_text` (`core/mongodb_utils.py` lines 304-309):
`re.sub(r'\s+', ' ', cleaned).strip()` equals rejoining the
whitespace-split words with single spaces. -/
def _normalize_text (l : List Char) : List Char :=
  List.intercalate [' '] (pySplit (cleanChars l))

/-- The stop-word set of `_extract_keywords` (`core/mongodb_utils.py` lines
282-296; the Python literal repeats a few words, which is harmless for
membership). -/
def stop_words : List (List Char) :=
  ([ "the", "a", "an", "and", "or", "but", "in", "on", "at", "to", "for", "of", "with", "by",
     "is", "are", "was", "were", "be", "been", "have", "has", "had", "do", "does", "did",
     "will", "would", "could", "should", "may", "might", "can", "what", "how", "when",
     "where", "why", "who", "this", "that", "these", "those", "i", "you", "he", "she",
     "it", "we", "they", "me", "him", "her", "us", "them", "my", "your", "his",
     "its", "our", "their", "am", "not", "so", "if", "then", "than", "as", "up", "down",
     "out", "off", "over", "under", "again", "further", "once", "here", "there",
     "all", "any", "both", "each", "few", "more", "most",
     "other", "some", "such", "no", "nor", "only", "own", "same", "too",
     "very", "just", "now", "get", "got", "go", "goes", "went", "come", "came", "see",
     "saw", "know", "knew", "think", "thought", "take", "took", "give", "gave", "make",
     "made", "find", "found", "tell", "told", "ask", "asked", "work", "worked", "seem",
     "seemed", "feel", "felt", "try", "tried", "leave", "left", "call", "called" ] :
   List String).map (fun s => s.toList)

/-- `_extract_keywords` (`core/mongodb_utils.py` lines 276-301).  Python's
`list(set(words))[:15]` iterates the set in unspecified order; deduplication
in first-occurrence order is used here. -/
def _extract_keywords (text : List Char) : List (List Char) :=
  let clean_text := cleanChars text
  let words := (pySplit clean_text).filter
    (fun w => !stop_words.contains w && decide (2 < w.length))
  words.dedup.take 15

/-! ### Lexical similarity (`_calculate_text_similarity`,
`core/mongodb_utils.py` lines 312-360) -/

/-- `set(text.split())` as a deduplicated word list. -/
def pyWordSet (t : List Char) : List (List Char) := (pySplit t).dedup

/-- Method 1: Jaccard word overlap. -/
def jaccardSim (t1 t2 : List Char) : ℚ :=
  let words1 := pyWordSet t1
  let words2 := pyWordSet t2
  let intersection := words1.filter (fun w => words2.contains w)
  let union := (words1 ++ words2).dedup
  if union.isEmpty then 0 else (intersection.length : ℚ) / (union.length : ℚ)

/-- Method 2 counter: words of `t1` longer than 3 characters having some
word of `t2` longer than 3 characters of which one is a substring of the
other (the inner `break` makes each word of `t1` count at most once). -/
def substrMatches (t1 t2 : List Char) : ℕ :=
  ((pyWordSet t1).filter (fun w1 =>
    (pyWordSet t2).any (fun w2 =>
      decide (3 < w1.length) && decide (3 < w2.length)
        && (decide (w1 <:+: w2) || decide (w2 <:+: w1))))).length

/-- Method 2: substring-overlap ratio. -/
def substringSim (t1 t2 : List Char) : ℚ :=
  let m := max (pyWordSet t1).length (pyWordSet t2).length
  if 0 < m then (substrMatches t1 t2 : ℚ) / (m : ℚ) else 0

/-- `[text1[i:i+len(text2)] for i in range(len(text1) - len(text2) + 1)]`
(an empty list when `t2` is longer than `t1`, as with Python's `range` of a
negative bound). -/
def phrasesOf (t1 t2 : List Char) : List (List Char) :=
  (List.range (t1.length + 1 - t2.length)).map (fun i => (t1.drop i).take t2.length)

/-- Method 3: phrase-containment bonus. -/
def phraseSim (t1 t2 : List Char) : ℚ :=
  if 1 < (pySplit t1).length ∧ 1 < (pySplit t2).length then
    if t1 <:+: t2 ∨ t2 <:+: t1 then 1/2
    else if (phrasesOf t1 t2).any (fun p => decide (10 < p.length) && decide (p <:+: t2)) then
      3/10
    else if (phrasesOf t2 t1).any (fun p => decide (10 < p.length) && decide (p <:+: t1)) then
      3/10
    else 0
  else 0

/-- `_calculate_text_similarity` (`core/mongodb_utils.py` lines 312-360). -/
def _calculate_text_similarity (text1 text2 : List Char) : ℚ :=
  if text1.isEmpty || text2.isEmpty then 0
  else if (pyWordSet text1).isEmpty || (pyWordSet text2).isEmpty then 0
  else
    min (jaccardSim text1 text2 * (6/10) + substringSim text1 text2 * (3/10)
      + phraseSim text1 text2 * (1/10)) 1

/-- The candidate similarity of strategy 2 (`core/mongodb_utils.py` lines
92-98): the maximum of the question and answer similarities against the
normalized query. -/
def candidateSimilarity (normalized_query : List Char) (c : StoredContribution) : ℚ :=
  max (_calculate_text_similarity normalized_query (_normalize_text c.question))
      (_calculate_text_similarity normalized_query (_normalize_text c.answer))

theorem simComponents_zero (t1 t2 : List Char)
    (h : pyWordSet t1 = [] ∨ pyWordSet t2 = []) :
    jaccardSim t1 t2 = 0 ∧ substringSim t1 t2 = 0 ∧ phraseSim t1 t2 = 0 := by
  have hsplit : pySplit t1 = [] ∨ pySplit t2 = [] := by
    rcases h with h | h
    · exact Or.inl (by simpa [pyWordSet, List.dedup_eq_nil] using h)
    · exact Or.inr (by simpa [pyWordSet, List.dedup_eq_nil] using h)
  refine ⟨?_, ?_, ?_⟩
  · unfold jaccardSim
    rcases h with h | h
    · simp [h]
    · simp [h]
  · unfold substringSim substrMatches
    rcases h with h | h
    · simp [h]
    · simp [h]
  · unfold phraseSim
    rcases hsplit with h | h <;> simp [h]

theorem jaccardSim_def (t1 t2 : List Char) :
    jaccardSim t1 t2
      = if ((pyWordSet t1 ++ pyWordSet t2).dedup).isEmpty then 0
        else ((((pyWordSet t1).filter (fun w => (pyWordSet t2).contains w)).length : ℚ)
          / (((pyWordSet t1 ++ pyWordSet t2).dedup).length : ℚ)) := rfl

theorem substringSim_def (t1 t2 : List Char) :
    substringSim t1 t2
      = if 0 < max (pyWordSet t1).length (pyWordSet t2).length then
          ((substrMatches t1 t2 : ℚ)
            / ((max (pyWordSet t1).length (pyWordSet t2).length : ℕ) : ℚ))
        else 0 := rfl

theorem jaccardSim_nonneg (t1 t2 : List Char) : 0 ≤ jaccardSim t1 t2 := by
  rw [jaccardSim_def]
  split
  · exact le_refl 0
  · positivity

theorem substringSim_nonneg (t1 t2 : List Char) : 0 ≤ substringSim t1 t2 := by
  rw [substringSim_def]
  split
  · positivity
  · exact le_refl 0

theorem phraseSim_nonneg (t1 t2 : List Char) : 0 ≤ phraseSim t1 t2 := by
  unfold phraseSim
  split_ifs <;> norm_num

/-- Claim C3: the lexical similarity score equals the weighted sum
`0.6 * Jaccard + 0.3 * substring-overlap + 0.1 * phrase bonus` capped at
`1.0`; it always lies in `[0, 1]`; and a candidate's similarity is the
maximum of the score against the contribution's question and against its
answer. -/
theorem lexical_similarity_spec (text1 text2 nq : List Char) (c : StoredContribution) :
    _calculate_text_similarity text1 text2
      = min (jaccardSim text1 text2 * (6/10) + substringSim text1 text2 * (3/10)
          + phraseSim text1 text2 * (1/10)) 1 ∧
    0 ≤ _calculate_text_similarity text1 text2 ∧
    _calculate_text_similarity text1 text2 ≤ 1 ∧
    candidateSimilarity nq c
      = max (_calculate_text_similarity nq (_normalize_text c.question))
          (_calculate_text_similarity nq (_normalize_text c.answer)) := by
  have hsum : ∀ a b : List Char, 0 ≤ jaccardSim a b * (6/10) + substringSim a b * (3/10)
      + phraseSim a b * (1/10) := by
    intro a b
    have := jaccardSim_nonneg a b
    have := substringSim_nonneg a b
    have := phraseSim_nonneg a b
    positivity
  have heq : _calculate_text_similarity text1 text2
      = min (jaccardSim text1 text2 * (6/10) + substringSim text1 text2 * (3/10)
          + phraseSim text1 text2 * (1/10)) 1 := by
    unfold _calculate_text_similarity
    split_ifs with h1 h2
    · have h : pyWordSet text1 = [] ∨ pyWordSet text2 = [] := by
        rw [Bool.or_eq_true] at h1
        rcases h1 with h | h
        · exact Or.inl (by rw [List.isEmpty_iff.1 h]; rfl)
        · exact Or.inr (by rw [List.isEmpty_iff.1 h]; rfl)
      obtain ⟨hj, hs, hp⟩ := simComponents_zero text1 text2 h
      rw [hj, hs, hp]
      norm_num
    · have h : pyWordSet text1 = [] ∨ pyWordSet text2 = [] := by
        rw [Bool.or_eq_true] at h2
        rcases h2 with h | h
        · exact Or.inl (List.isEmpty_iff.1 h)
        · exact Or.inr (List.isEmpty_iff.1 h)
      obtain ⟨hj, hs, hp⟩ := simComponents_zero text1 text2 h
      rw [hj, hs, hp]
      norm_num
    · rfl
  refine ⟨heq, ?_, ?_, rfl⟩
  · rw [heq]
    exact le_min (hsum text1 text2) (by norm_num)
  · rw [heq]
    exact min_le_right _ _

/-! ### Contribution search (`search_similar_contributions`,
`core/mongodb_utils.py` lines 40-183)

The MongoDB state is the explicit `store` argument; the `$text` index is the
oracle `textMatches` (the records the store's full-text search would return,
before the query's extra conditions) together with the flag
` text_search_available` (the `try/except` around strategy 4).  The Python
float constants `0.05` and `0.5` are the exact rationals `mkRat 1 20` and
`mkRat 1 2`.  The best-effort `usage_count` increments for the top 3 results
(lines 167-173) mutate only the store, never the already-materialised result
dicts, so they do not affect the return value and are omitted. -/

/-- MongoDB `order_by('-rating', '-usage_count')` as a total preorder:
`a` sorts at or before `b`. -/
def contribGe (a b : StoredContribution) : Prop :=
  b.rating < a.rating ∨ (a.rating = b.rating ∧ b.usage_count ≤ a.usage_count)

instance : DecidableRel contribGe := fun a b =>
  inferInstanceAs (Decidable (b.rating < a.rating ∨
    (a.rating = b.rating ∧ b.usage_count ≤ a.usage_count)))

/-- The final `results.sort(key=..., reverse=True)` order:
`(similarity_score, rating, usage_count)` descending.  A stable sort by a
total preorder is unique, so `insertionSort` matches Python's stable sort. -/
def resultGe (a b : ContributionResult) : Prop :=
  b.similarity_score < a.similarity_score ∨
    (a.similarity_score = b.similarity_score ∧
      (b.contrib.rating < a.contrib.rating ∨
        (a.contrib.rating = b.contrib.rating ∧
          b.contrib.usage_count ≤ a.contrib.usage_count)))

instance : DecidableRel resultGe := fun a b =>
  inferInstanceAs (Decidable (b.similarity_score < a.similarity_score ∨
    (a.similarity_score = b.similarity_score ∧
      (b.contrib.rating < a.contrib.rating ∨
        (a.contrib.rating = b.contrib.rating ∧
          b.contrib.usage_count ≤ a.contrib.usage_count)))))

/-- The base query filter `is_approved="approved", rating__gte=min_rating`. -/
def approvedFilter (min_rating : ℚ) (c : StoredContribution) : Bool :=
  decide (c.is_approved = ApprovalState.approved) && decide (min_rating ≤ c.rating)

/-- `UserContribution.objects(is_approved="approved",
rating__gte=min_rating).order_by('-rating', '-usage_count')`
(`core/mongodb_utils.py` lines 71-74). -/
def approvedContributions (store : List StoredContribution) (min_rating : ℚ) :
    List StoredContribution :=
  (store.filter (approvedFilter min_rating)).insertionSort contribGe

/-- Strategy 2 (`core/mongodb_utils.py` lines 83-108): question/answer
similarity over the approved contributions, accepting above `0.05`. -/
def strategy2Loop (nq : List Char) (limit : ℕ) :
    List StoredContribution → List ContributionResult → List ℕ →
    List ContributionResult × List ℕ
  | [], results, seen => (results, seen)
  | c :: rest, results, seen =>
    if limit ≤ results.length then (results, seen)
    else if c.id ∈ seen then strategy2Loop nq limit rest results seen
    else
      let max_similarity := candidateSimilarity nq c
      if mkRat 1 20 < max_similarity then
        strategy2Loop nq limit rest
          (results ++ [{ contrib := c, similarity_score := max_similarity }])
          (seen ++ [c.id])
      else strategy2Loop nq limit rest results seen

/-- Strategy 3 (`core/mongodb_utils.py` lines 111-134): keyword matching
over the approved contributions (`keyword in contrib_text` is Python
substring containment). -/
def strategy3Loop (query_keywords : List (List Char)) (limit : ℕ) :
    List StoredContribution → List ContributionResult → List ℕ →
    List ContributionResult × List ℕ
  | [], results, seen => (results, seen)
  | c :: rest, results, seen =>
    if limit ≤ results.length then (results, seen)
    else if c.id ∈ seen then strategy3Loop query_keywords limit rest results seen
    else
      let contrib_text := _normalize_text (c.question ++ [' '] ++ c.answer)
      let keyword_matches := query_keywords.countP (fun k => decide (k <:+: contrib_text))
      if 0 < keyword_matches then
        let keyword_similarity := (keyword_matches : ℚ) / (query_keywords.length : ℚ)
        if mkRat 1 20 < keyword_similarity then
          strategy3Loop query_keywords limit rest
            (results ++ [{ contrib := c, similarity_score := keyword_similarity }])
            (seen ++ [c.id])
        else strategy3Loop query_keywords limit rest results seen
      else strategy3Loop query_keywords limit rest results seen

/-- Strategy 4 inner loop (`core/mongodb_utils.py` lines 151-159): append
every not-yet-seen text-search hit with the fixed default score `0.5`. -/
def strategy4Add :
    List StoredContribution → List ContributionResult → List ℕ →
    List ContributionResult × List ℕ
  | [], results, seen => (results, seen)
  | c :: rest, results, seen =>
    if c.id ∈ seen then strategy4Add rest results seen
    else strategy4Add rest
      (results ++ [{ contrib := c, similarity_score := mkRat 1 2 }]) (seen ++ [c.id])

/-- The conditions of the strategy-4 raw `$text` query
(`core/mongodb_utils.py` lines 140-145): approved only when at least one
approved contribution exists, otherwise approved **or pending**, and always
`rating >= min_rating`. -/
def textFilter (approved_count : ℕ) (min_rating : ℚ) (c : StoredContribution) : Bool :=
  (if 0 < approved_count then decide (c.is_approved = ApprovalState.approved)
   else decide (c.is_approved = ApprovalState.approved)
     || decide (c.is_approved = ApprovalState.pending))
  && decide (min_rating ≤ c.rating)

/-- `search_similar_contributions` (`core/mongodb_utils.py` lines 40-183). -/
def search_similar_contributions (store textMatches : List StoredContribution)
    ( text_search_available : Bool) (query : List Char) (limit : ℕ) (min_rating : ℚ) :
    List ContributionResult :=
  let query_keywords := _extract_keywords query
  let normalized_query := _normalize_text query
  let all_contributions := approvedContributions store min_rating
  let approved_count := all_contributions.length
  let res2 := strategy2Loop normalized_query limit all_contributions [] []
  let res3 :=
    if res2.1.length < limit ∧ query_keywords ≠ [] then
      strategy3Loop query_keywords limit all_contributions res2.1 res2.2
    else res2
  let res4 :=
    if res3.1.length < limit ∧ text_search_available then
      (strategy4Add
        ((textMatches.filter (textFilter approved_count min_rating)).take
          (limit - res3.1.length))
        res3.1 res3.2).1
    else res3.1
  (res4.insertionSort resultGe).take limit

theorem strategy2Loop_mem (nq : List Char) (limit : ℕ) :
    ∀ l results seen r, r ∈ (strategy2Loop nq limit l results seen).1 →
      r ∈ results ∨ r.contrib ∈ l := by
  intro l
  induction l with
  | nil => intro results seen r hr; exact Or.inl hr
  | cons c rest ih =>
    intro results seen r hr
    simp only [strategy2Loop] at hr
    split at hr
    · exact Or.inl hr
    · split at hr
      · rcases ih _ _ _ hr with h | h
        · exact Or.inl h
        · exact Or.inr (List.mem_cons_of_mem _ h)
      · split at hr
        · rcases ih _ _ _ hr with h | h
          · rcases List.mem_append.1 h with h' | h'
            · exact Or.inl h'
            · rcases List.mem_singleton.1 h' with rfl
              exact Or.inr (List.mem_cons_self _ _)
          · exact Or.inr (List.mem_cons_of_mem _ h)
        · rcases ih _ _ _ hr with h | h
          · exact Or.inl h
          · exact Or.inr (List.mem_cons_of_mem _ h)

theorem strategy3Loop_mem (kws : List (List Char)) (limit : ℕ) :
    ∀ l results seen r, r ∈ (strategy3Loop kws limit l results seen).1 →
      r ∈ results ∨ r.contrib ∈ l := by
  intro l
  induction l with
  | nil => intro results seen r hr; exact Or.inl hr
  | cons c rest ih =>
    intro results seen r hr
    simp only [strategy3Loop] at hr
    split at hr
    · exact Or.inl hr
    · split at hr
      · rcases ih _ _ _ hr with h | h
        · exact Or.inl h
        · exact Or.inr (List.mem_cons_of_mem _ h)
      · split at hr
        · split at hr
          · rcases ih _ _ _ hr with h | h
            · rcases List.mem_append.1 h with h' | h'
              · exact Or.inl h'
              · rcases List.mem_singleton.1 h' with rfl
                exact Or.inr (List.mem_cons_self _ _)
            · exact Or.inr (List.mem_cons_of_mem _ h)
          · rcases ih _ _ _ hr with h | h
            · exact Or.inl h
            · exact Or.inr (List.mem_cons_of_mem _ h)
        · rcases ih _ _ _ hr with h | h
          · exact Or.inl h
          · exact Or.inr (List.mem_cons_of_mem _ h)

theorem strategy4Add_mem :
    ∀ l results seen r, r ∈ (strategy4Add l results seen).1 →
      r ∈ results ∨ r.contrib ∈ l := by
  intro l
  induction l with
  | nil => intro results seen r hr; exact Or.inl hr
  | cons c rest ih =>
    intro results seen r hr
    simp only [strategy4Add] at hr
    split at hr
    · rcases ih _ _ _ hr with h | h
      · exact Or.inl h
      · exact Or.inr (List.mem_cons_of_mem _ h)
    · rcases ih _ _ _ hr with h | h
      · rcases List.mem_append.1 h with h' | h'
        · exact Or.inl h'
        · rcases List.mem_singleton.1 h' with rfl
          exact Or.inr (List.mem_cons_self _ _)
      · exact Or.inr (List.mem_cons_of_mem _ h)

theorem mem_approvedContributions {store : List StoredContribution} {mr : ℚ}
    {c : StoredContribution} (hc : c ∈ approvedContributions store mr) :
    c.is_approved = ApprovalState.approved := by
  unfold approvedContributions at hc
  have hmem : c ∈ store.filter (approvedFilter mr) :=
    (List.perm_insertionSort contribGe _).mem_iff.1 hc
  have hfil := List.of_mem_filter hmem
  unfold approvedFilter at hfil
  exact of_decide_eq_true (Bool.and_eq_true _ _ ▸ hfil).1

theorem textFilter_not_rejected {ac : ℕ} {mr : ℚ} {c : StoredContribution}
    (h : textFilter ac mr c = true) : c.is_approved ≠ ApprovalState.rejected := by
  unfold textFilter at h
  have h1 := (Bool.and_eq_true _ _ ▸ h).1
  split at h1
  · have := of_decide_eq_true h1
    intro hcon; rw [hcon] at this; exact ApprovalState.noConfusion this
  · rcases Bool.or_eq_true _ _ ▸ h1 with h2 | h2
    · have := of_decide_eq_true h2
      intro hcon; rw [hcon] at this; exact ApprovalState.noConfusion this
    · have := of_decide_eq_true h2
      intro hcon; rw [hcon] at this; exact ApprovalState.noConfusion this

theorem textFilter_approved {ac : ℕ} {mr : ℚ} {c : StoredContribution}
    (hac : 0 < ac) (h : textFilter ac mr c = true) :
    c.is_approved = ApprovalState.approved := by
  unfold textFilter at h
  have h1 := (Bool.and_eq_true _ _ ▸ h).1
  rw [if_pos hac] at h1
  exact of_decide_eq_true h1

/-- Every result of the search either comes from the approved query or from
the filtered text-search hits. -/
theorem search_mem_cases (store textMatches : List StoredContribution)
    ( text_search_available : Bool) (query : List Char) (limit : ℕ) (mr : ℚ)
    (r : ContributionResult)
    (hr : r ∈ search_similar_contributions store textMatches
      text_search_available query limit mr) :
    r.contrib ∈ approvedContributions store mr ∨
    r.contrib ∈ textMatches.filter
      (textFilter (approvedContributions store mr).length mr) := by
  simp only [search_similar_contributions] at hr
  have hr4 := (List.perm_insertionSort resultGe _).mem_iff.1 (List.take_subset _ _ hr)
  split at hr4
  · -- strategy 3 ran
    split at hr4
    · rcases strategy4Add_mem _ _ _ _ hr4 with h3 | h3
      · rcases strategy3Loop_mem _ _ _ _ _ _ h3 with h2 | h2
        · rcases strategy2Loop_mem _ _ _ _ _ _ h2 with h | h
          · simp at h
          · exact Or.inl h
        · exact Or.inl h2
      · exact Or.inr (List.take_subset _ _ h3)
    · rcases strategy3Loop_mem _ _ _ _ _ _ hr4 with h2 | h2
      · rcases strategy2Loop_mem _ _ _ _ _ _ h2 with h | h
        · simp at h
        · exact Or.inl h
      · exact Or.inl h2
  · -- strategy 3 skipped
    split at hr4
    · rcases strategy4Add_mem _ _ _ _ hr4 with h3 | h3
      · rcases strategy2Loop_mem _ _ _ _ _ _ h3 with h | h
        · simp at h
        · exact Or.inl h
      · exact Or.inr (List.take_subset _ _ h3)
    · rcases strategy2Loop_mem _ _ _ _ _ _ hr4 with h | h
      · simp at h
      · exact Or.inl h

/-- Claim C2, amended: rejected contributions are never returned by any
strategy; and whenever at least one approved contribution (meeting the
rating threshold) exists, every returned contribution is approved.  (Only
when there are zero approved contributions can the text-search fallback
return pending ones — see the counterexample.) -/
theorem contributions_approval_filter (store textMatches : List StoredContribution)
    ( text_search_available : Bool) (query : List Char) (limit : ℕ) (min_rating : ℚ) :
    (∀ r ∈ search_similar_contributions store textMatches text_search_available
        query limit min_rating,
      r.contrib.is_approved ≠ ApprovalState.rejected) ∧
    (0 < (approvedContributions store min_rating).length →
      ∀ r ∈ search_similar_contributions store textMatches text_search_available
          query limit min_rating,
        r.contrib.is_approved = ApprovalState.approved) := by
  constructor
  · intro r hr
    rcases search_mem_cases store textMatches text_search_available query limit
        min_rating r hr with h | h
    · rw [mem_approvedContributions h]
      exact fun hcon => ApprovalState.noConfusion hcon
    · exact textFilter_not_rejected (List.of_mem_filter h)
  · intro hpos r hr
    rcases search_mem_cases store textMatches text_search_available query limit
        min_rating r hr with h | h
    · exact mem_approvedContributions h
    · exact textFilter_approved hpos (List.of_mem_filter h)

/-- A store holding one single *pending* contribution. -/
def pendingOnly : StoredContribution :=
  { id := 1, question := ("how to clean the espresso machine").toList,
    answer := ("soak the parts overnight").toList, rating := 0, usage_count := 0,
    is_approved := ApprovalState.pending }

/-- Claim C2, counterexample (`core/mongodb_utils.py` lines 140-144): with a
store containing no approved contribution and one pending one matched by the
`$text` index, the search returns the pending contribution (with the default
text-search score `0.5`) — contradicting "no contribution whose approval
state is pending or rejected ever appears in the returned result list".
This also contradicts the comment at lines 79-80 of the same function
("Pending contributions should not appear in search until approved by
admin"). -/
theorem pending_returned_when_no_approved :
    search_similar_contributions [pendingOnly] [pendingOnly] true
        (("espresso").toList) 5 0
      = [{ contrib := pendingOnly, similarity_score := mkRat 1 2 }] ∧
    pendingOnly.is_approved = ApprovalState.pending :=
  ⟨rfl, rfl⟩

/-- A store holding one single *approved* contribution whose texts normalize
to the empty string. -/
def approvedPunct : StoredContribution :=
  { id := 2, question := ("???").toList, answer := ("!!!").toList,
    rating := 0, usage_count := 0, is_approved := ApprovalState.approved }

theorem contributions_approval_filter_witness :
    0 < (approvedContributions [approvedPunct] 0).length ∧
    ({ contrib := approvedPunct, similarity_score := mkRat 1 2 } :
        ContributionResult).contrib.is_approved ≠ ApprovalState.rejected ∧
    ({ contrib := approvedPunct, similarity_score := mkRat 1 2 } :
        ContributionResult).contrib.is_approved = ApprovalState.approved :=
  ⟨by decide,
    (contributions_approval_filter [approvedPunct] [approvedPunct] true
        (("zzz").toList) 5 0).1
      { contrib := approvedPunct, similarity_score := mkRat 1 2 } (by decide),
    (contributions_approval_filter [approvedPunct] [approvedPunct] true
        (("zzz").toList) 5 0).2 (by decide)
      { contrib := approvedPunct, similarity_score := mkRat 1 2 } (by decide)⟩

/-! ### Quality assessment (`core/enhanced_search.py` lines 171-227) -/

/-- `_assess_faiss_quality` (`core/enhanced_search.py` lines 171-195; the
`query` parameter of the source is unused there and omitted). -/
def _assess_faiss_quality (faiss_chunks : List FaissChunk) : ℚ :=
  if faiss_chunks.isEmpty then 0
  else
    let similarities := faiss_chunks.map (fun chunk => chunk.similarity)
    let avg_similarity :=
      if similarities.isEmpty then 0 else similarities.sum / (similarities.length : ℚ)
    let count_bonus := min ((faiss_chunks.length : ℚ) / 5) (1/5)
    min (avg_similarity + count_bonus) 1

/-- `_assess_mongodb_quality` (`core/enhanced_search.py` lines 198-227; the
unused `query` parameter is omitted). -/
def _assess_mongodb_quality (contributions : List ContributionResult) : ℚ :=
  if contributions.isEmpty then 0
  else
    let similarities := contributions.map (fun contrib => contrib.similarity_score)
    let avg_similarity :=
      if similarities.isEmpty then 0 else similarities.sum / (similarities.length : ℚ)
    let ratings := contributions.map (fun contrib => contrib.contrib.rating)
    let avg_rating := if ratings.isEmpty then 0 else ratings.sum / (ratings.length : ℚ)
    let rating_bonus := avg_rating / 5 * (3/10)
    let count_bonus := min ((contributions.length : ℚ) / 3) (1/5)
    min (avg_similarity + rating_bonus + count_bonus) 1

/-- Quality-score formula shared by claims C4 and C5. -/
theorem mongodb_quality_eq (results : List ContributionResult) :
    _assess_mongodb_quality results
      = if results.isEmpty then 0
        else
          min ((results.map (fun r => r.similarity_score)).sum / (results.length : ℚ)
            + ((results.map (fun r => r.contrib.rating)).sum / (results.length : ℚ))
              / 5 * (3/10)
            + min ((results.length : ℚ) / 3) (1/5)) 1 := by
  cases results with
  | nil => rfl
  | cons a l =>
    unfold _assess_mongodb_quality
    simp [List.length_map]

/-- Claim C4: the contribution quality score is
`min(avg(similarity) + (avg(rating)/5)*0.3 + min(count/3, 0.2), 1.0)`, and
`0.0` for the empty result set. -/
theorem contribution_quality_formula (results : List ContributionResult) :
    _assess_mongodb_quality results
      = if results.isEmpty then 0
        else
          min ((results.map (fun r => r.similarity_score)).sum / (results.length : ℚ)
            + ((results.map (fun r => r.contrib.rating)).sum / (results.length : ℚ))
              / 5 * (3/10)
            + min ((results.length : ℚ) / 3) (1/5)) 1 :=
  mongodb_quality_eq results

/-- Claim C5: for two non-empty result sets with identical similarity
scores (hence identical counts), the one with the greater average rating
gets a contribution quality score at least as large. -/
theorem contribution_quality_monotone_rating (rs1 rs2 : List ContributionResult)
    (h1 : rs1 ≠ []) (h2 : rs2 ≠ [])
    (hsim : rs1.map (fun r => r.similarity_score) = rs2.map (fun r => r.similarity_score))
    (hrat : (rs2.map (fun r => r.contrib.rating)).sum / (rs2.length : ℚ)
          < (rs1.map (fun r => r.contrib.rating)).sum / (rs1.length : ℚ)) :
    _assess_mongodb_quality rs2 ≤ _assess_mongodb_quality rs1 := by
  have hlen : rs1.length = rs2.length := by
    have := congrArg List.length hsim
    simpa using this
  rw [mongodb_quality_eq, mongodb_quality_eq,
    if_neg (by simpa [List.isEmpty_iff] using h2),
    if_neg (by simpa [List.isEmpty_iff] using h1)]
  apply min_le_min _ le_rfl
  have hS : (rs1.map (fun r => r.similarity_score)).sum / (rs1.length : ℚ)
      = (rs2.map (fun r => r.similarity_score)).sum / (rs2.length : ℚ) := by
    rw [hsim, hlen]
  rw [← hlen] at hrat ⊢
  rw [hS, ← hlen]
  have := le_of_lt hrat
  have h5 : (0 : ℚ) < 5 := by norm_num
  have h310 : (0 : ℚ) < 3/10 := by norm_num
  nlinarith [this]

def contribHighRated : StoredContribution :=
  { id := 3, question := ("q").toList, answer := ("a").toList,
    rating := 5, usage_count := 0, is_approved := ApprovalState.approved }

def contribLowRated : StoredContribution :=
  { id := 4, question := ("q").toList, answer := ("a").toList,
    rating := 0, usage_count := 0, is_approved := ApprovalState.approved }

theorem contribution_quality_monotone_rating_witness :
    (([{ contrib := contribLowRated, similarity_score := 0 }] :
        List ContributionResult).map (fun r => r.contrib.rating)).sum
        / ((1 : ℕ) : ℚ)
      < (([{ contrib := contribHighRated, similarity_score := 0 }] :
        List ContributionResult).map (fun r => r.contrib.rating)).sum
        / ((1 : ℕ) : ℚ) ∧
    _assess_mongodb_quality [{ contrib := contribLowRated, similarity_score := 0 }]
      ≤ _assess_mongodb_quality [{ contrib := contribHighRated, similarity_score := 0 }] := by
  have hrat : (([{ contrib := contribLowRated, similarity_score := 0 }] :
        List ContributionResult).map (fun r => r.contrib.rating)).sum
        / (([{ contrib := contribLowRated, similarity_score := 0 }] :
          List ContributionResult).length : ℚ)
      < (([{ contrib := contribHighRated, similarity_score := 0 }] :
        List ContributionResult).map (fun r => r.contrib.rating)).sum
        / (([{ contrib := contribHighRated, similarity_score := 0 }] :
          List ContributionResult).length : ℚ) := by
    norm_num [contribHighRated, contribLowRated]
  exact ⟨by simpa using hrat,
    contribution_quality_monotone_rating _ _ (by simp) (by simp) rfl hrat⟩

/-! ### Context composition and the enhanced search
(`core/enhanced_search.py` lines 16-281)

Strings produced for the language model are Lean `String`s.  Numeric
rendering (`f"{x:.2f}"`, `f"{rating}"`) is modelled by `fmt2` and `Rat`'s
`toString`; no claim depends on the digits, only on which composition
branch produced the text. -/

/-- Two-decimal rendering of a score, modelling Python's `f"{x:.2f}"`
(round-half conventions differ immaterially). -/
def fmt2 (q : ℚ) : String :=
  let n : ℤ := round (q * 100)
  toString (n / 100) ++ (".") ++ (if n % 100 < 10 then ("0") else ("")) ++ toString (n % 100)

/-- The per-contribution block shared by both composers
(`core/enhanced_search.py` lines 134-146 and 247-259), parametrised by the
heading of its first line. -/
def contribBlock (head : String) (i : ℕ) (c : ContributionResult) : String :=
  head ++ toString i ++ (":\n")
    ++ (if c.contrib.question.isEmpty then ("")
        else ("Question: ") ++ String.mk c.contrib.question ++ ("\n"))
    ++ ("Answer: ") ++ String.mk c.contrib.answer ++ ("\n")
    ++ ("Rating: ") ++ toString c.contrib.rating ++ ("/5.0 (Similarity: ")
    ++ fmt2 c.similarity_score ++ (")")

/-- The per-document block shared by both composers
(`core/enhanced_search.py` lines 154-160 and 267-273). -/
def documentBlock (i : ℕ) (chunk : FaissChunk) : String :=
  ("DOCUMENT #") ++ toString i ++ (" (from ") ++ chunk.meta.filename ++ ("):\n")
    ++ chunk.meta.text ++ ("\n(Similarity: ") ++ fmt2 chunk.similarity ++ (")")

/-- `_create_combined_context` (`core/enhanced_search.py` lines 118-168). -/
def _create_combined_context (faiss_chunks : List FaissChunk)
    (contributions : List ContributionResult) : String :=
  let contribution_parts :=
    if contributions.isEmpty then []
    else
      [("USER CONTRIBUTIONS AND ENHANCEMENTS:\n")
        ++ String.intercalate ("\n\n")
          (contributions.enum.map
            (fun ic => contribBlock ("USER CONTRIBUTION #") (ic.1 + 1) ic.2))]
  let faiss_parts :=
    if faiss_chunks.isEmpty then []
    else
      [("ORIGINAL KNOWLEDGE BASE:\n")
        ++ String.intercalate ("\n\n")
          (faiss_chunks.enum.map (fun ic => documentBlock (ic.1 + 1) ic.2))]
  String.intercalate ("\n\n") (contribution_parts ++ faiss_parts)

/-- `_create_prioritized_context` (`core/enhanced_search.py` lines
230-281). -/
def _create_prioritized_context (contributions : List ContributionResult)
    (faiss_chunks : List FaissChunk) ( prioritize_mongodb : Bool) : String :=
  if prioritize_mongodb && !contributions.isEmpty then
    let contribution_parts :=
      [("USER CONTRIBUTIONS (PRIORITIZED):\n")
        ++ String.intercalate ("\n\n")
          (contributions.enum.map
            (fun ic => contribBlock ("🎯 HIGHLY RELEVANT USER CONTRIBUTION #")
              (ic.1 + 1) ic.2))]
    let faiss_parts :=
      if faiss_chunks.isEmpty then []
      else
        [("SUPPLEMENTARY DOCUMENTATION:\n")
          ++ String.intercalate ("\n\n")
            (faiss_chunks.enum.map (fun ic => documentBlock (ic.1 + 1) ic.2))]
    String.intercalate ("\n\n") (contribution_parts ++ faiss_parts)
  else _create_combined_context faiss_chunks contributions

/-- The dict returned by `search_similar_chunks` as consumed by the
enhanced search (`success`, `chunks`, optional `search_time`). -/
structure FaissSearchResult where
  success : Bool
  chunks : List FaissChunk
  search_time : ℚ
deriving DecidableEq

/-- The `search_metadata` dict (`core/enhanced_search.py` lines 80-89).  The
failure dict carries only the first three keys; absent keys take the model
defaults `false`/`0`. -/
structure SearchMetadata where
  faiss_count : ℕ
  contribution_count : ℕ
  search_time : ℚ
  has_contributions : Bool
  total_sources : ℕ
  faiss_quality : ℚ
  mongodb_quality : ℚ
  prioritized_mongodb : Bool
deriving DecidableEq

/-- The dict returned by `enhanced_search_with_contributions`
(the echoed `original_faiss_result` key is omitted). -/
structure EnhancedSearchResult where
  success : Bool
  error : Option String
  faiss_results : List FaissChunk
  contribution_results : List ContributionResult
  combined_context : String
  search_metadata : SearchMetadata
deriving DecidableEq

/-- The dict built by the outer `except` handler
(`core/enhanced_search.py` lines 102-115). -/
def failureResult (e : String) : EnhancedSearchResult :=
  { success := false
    error := some e
    faiss_results := []
    contribution_results := []
    combined_context := ("")
    search_metadata :=
      { faiss_count := 0, contribution_count := 0, search_time := 0
        has_contributions := false, total_sources := 0
        faiss_quality := 0, mongodb_quality := 0, prioritized_mongodb := false } }

/-- `enhanced_search_with_contributions` (`core/enhanced_search.py` lines
16-115).  The two fallible collaborator calls are `Except`-valued
arguments: `faiss_step` (step 1; an exception there reaches the outer
`except`) and `contribution_step` (step 2; its exception is caught by the
inner `try` at lines 60-62, which falls back to the empty list).  Python's
truthiness of `mongodb_quality > faiss_quality and contribution_results`
is the stated conjunction with non-emptiness. -/
def enhanced_search_with_contributions (faiss_step : Except String FaissSearchResult)
    (include_contributions : Bool)
    (contribution_step : Except String (List ContributionResult)) :
    EnhancedSearchResult :=
  match faiss_step with
  | Except.error e => failureResult e
  | Except.ok faiss_result =>
    let faiss_chunks := if faiss_result.success then faiss_result.chunks else []
    let contribution_results :=
      if include_contributions then
        match contribution_step with
        | Except.ok l => l
        | Except.error _ => []
      else []
    let faiss_quality := _assess_faiss_quality faiss_chunks
    let mongodb_quality := _assess_mongodb_quality contribution_results
    let combined_context :=
      if faiss_quality < mongodb_quality ∧ contribution_results ≠ [] then
        _create_prioritized_context contribution_results faiss_chunks true
      else _create_combined_context faiss_chunks contribution_results
    { success := true
      error := none
      faiss_results := faiss_chunks
      contribution_results := contribution_results
      combined_context := combined_context
      search_metadata :=
        { faiss_count := faiss_chunks.length
          contribution_count := contribution_results.length
          search_time := if faiss_result.success then faiss_result.search_time else 0
          has_contributions := decide (0 < contribution_results.length)
          total_sources := faiss_chunks.length + contribution_results.length
          faiss_quality := faiss_quality
          mongodb_quality := mongodb_quality
          prioritized_mongodb :=
            decide (faiss_quality < mongodb_quality) && !contribution_results.isEmpty } }

/-- Claim C1: the blender renders in emphasized (MongoDB-prioritized) mode
— recorded in the `prioritized_mongodb` flag and realised by composing the
context through `_create_prioritized_context` — if and only if the
contribution quality is strictly greater than the FAISS quality and the
contribution result set is non-empty; in every other case the context is
the standard combination. -/
theorem blender_mode_selection (fr : FaissSearchResult)
    (contribs : List ContributionResult) :
    ((enhanced_search_with_contributions (Except.ok fr) true
        (Except.ok contribs)).search_metadata.prioritized_mongodb = true ↔
      (_assess_faiss_quality (if fr.success then fr.chunks else [])
          < _assess_mongodb_quality contribs ∧ contribs ≠ [])) ∧
    (enhanced_search_with_contributions (Except.ok fr) true
        (Except.ok contribs)).combined_context
      = (if _assess_faiss_quality (if fr.success then fr.chunks else [])
            < _assess_mongodb_quality contribs ∧ contribs ≠ []
         then _create_prioritized_context contribs
            (if fr.success then fr.chunks else []) true
         else _create_combined_context (if fr.success then fr.chunks else []) contribs) := by
  constructor
  · simp [enhanced_search_with_contributions, Bool.and_eq_true, decide_eq_true_eq,
      Bool.not_eq_true', List.isEmpty_eq_false]
  · rfl

/-- Claim C10: the enhanced-search entry point never propagates an
exception — a failing first step yields the failure dict, whose fields are
`success = false`, the error message, empty FAISS results, empty
contribution results and the empty combined context — while a failure
inside the contribution search alone yields an empty contribution list with
the overall search still succeeding. -/
theorem enhanced_search_error_handling :
    (∀ e include_contributions contribution_step,
      enhanced_search_with_contributions (Except.error e) include_contributions
          contribution_step
        = failureResult e) ∧
    (∀ e, (failureResult e).success = false ∧ (failureResult e).error = some e ∧
      (failureResult e).faiss_results = [] ∧
      (failureResult e).contribution_results = [] ∧
      (failureResult e).combined_context = ("")) ∧
    (∀ fr e,
      (enhanced_search_with_contributions (Except.ok fr) true
        (Except.error e)).success = true ∧
      (enhanced_search_with_contributions (Except.ok fr) true
        (Except.error e)).contribution_results = []) :=
  ⟨fun _ _ _ => rfl, fun _ => ⟨rfl, rfl, rfl, rfl, rfl⟩, fun _ _ => ⟨rfl, rfl⟩⟩

end KobyCore
